import Mathlib

/-!
Verification development for the Slack YouTube-digest batch bot
(`src/bot.py`).  The pipeline is embedded shallowly: message text is
`List Char`, every external collaborator (Slack client, yt-dlp, the
caption HTTP fetch, the Gemini call) is a function field of a `World`
record, and the batch loop of `batch_job` (bot.py lines 172-239) is a
structurally recursive function `runLoop` that returns the list of
posted replies together with the list of message timestamps the loop
examined, in order.
-/

/-- Message/str payloads are modelled as lists of characters. -/
abbrev Str := List Char

/-- Python `\s` for the ASCII range: the character class excluded by
`[^\s]+` in the two URL regexes of bot.py (lines 177 and 221). -/
def pySpace (c : Char) : Bool :=
  c == ' ' || c == '\t' || c == '\n' || c == '\r' || c == '\x0b' || c == '\x0c'

/-- The eight literal prefixes generated by
`https?://(www\.)?(youtube\.com|youtu\.be)/` (bot.py line 177).  They are
pairwise non-prefixing, so at most one of them matches at a position and
the committed choice below agrees with the regex's backtracking. -/
def urlPrefixes : List Str :=
  [("https://www.youtube.com/").toList,
   ("https://www.youtu.be/").toList,
   ("https://youtube.com/").toList,
   ("https://youtu.be/").toList,
   ("http://www.youtube.com/").toList,
   ("http://www.youtu.be/").toList,
   ("http://youtube.com/").toList,
   ("http://youtu.be/").toList]

/-- Try to match the YouTube-URL regex anchored at the head of `cs`:
one of the eight host prefixes followed by one or more non-space
characters, taken greedily (bot.py line 177). -/
def matchUrlAt (cs : List Char) : Option Str :=
  match urlPrefixes.find? (fun p => p.isPrefixOf cs) with
  | none => none
  | some p =>
    let tail := (cs.drop p.length).takeWhile (fun c => !pySpace c)
    if tail.isEmpty then none else some (p ++ tail)

/-- The search for the YouTube-URL pattern (`re.search`): the leftmost
match, returned as the whole matched text (`url_match.group(0)`,
bot.py lines 177-181). -/
def findUrl : List Char → Option Str
  | [] => none
  | c :: cs =>
    match matchUrlAt (c :: cs) with
    | some s => some s
    | none => findUrl cs

/-- The two literal prefixes generated by `https?://github\.com/`
(bot.py line 221). -/
def ghPrefixes : List Str :=
  [("https://github.com/").toList, ("http://github.com/").toList]

/-- Match the GitHub-URL regex anchored at the head of `cs`. -/
def matchGithubAt (cs : List Char) : Option Str :=
  match ghPrefixes.find? (fun p => p.isPrefixOf cs) with
  | none => none
  | some p =>
    let tail := (cs.drop p.length).takeWhile (fun c => !pySpace c)
    if tail.isEmpty then none else some (p ++ tail)

/-- Scan step of the GitHub-URL `re.findall`: on a match, resume right
after its end (matches are non-overlapping), otherwise advance one
character.  The fuel argument bounds the number of scan steps (each
consumes at least one character) and only serves to make the recursion
structural. -/
def findAllGithubAux : Nat → List Char → List Str
  | 0, _ => []
  | _, [] => []
  | fuel + 1, c :: cs =>
    match matchGithubAt (c :: cs) with
    | some s => s :: findAllGithubAux fuel (cs.drop (s.length - 1))
    | none => findAllGithubAux fuel cs

/-- All leftmost, non-overlapping matches of the GitHub-URL pattern in
order (`re.findall`, bot.py line 221). -/
def findAllGithub (l : List Char) : List Str := findAllGithubAux l.length l

/-- One caption track entry of the yt-dlp manifest: its format tag
(`ext`) and payload URL. -/
structure Track where
  ext : Str
  url : Str
deriving DecidableEq

/-- One segment of a json3 caption event; `utf8` is absent when the
segment carries no text (bot.py line 62). -/
structure CaptionSeg where
  utf8 : Option Str
deriving DecidableEq

/-- One event of a json3 caption payload; `segs` is absent when the
event carries no segments (bot.py line 60). -/
structure CaptionEvent where
  segs : Option (List CaptionSeg)
deriving DecidableEq

/-- A parsed json3 caption payload: events, each holding optional
segments with optional text (bot.py lines 56-63). -/
structure Json3Data where
  events : List CaptionEvent
deriving DecidableEq

/-- The yt-dlp `extract_info` result as far as bot.py consumes it:
optional title and description, and the two caption manifests, each an
ordered association list keyed by language.  `none` models an absent
key. -/
structure VideoInfo where
  title : Option Str
  description : Option Str
  automatic_captions : Option (List (Str × List Track))
  subtitles : Option (List (Str × List Track))
deriving DecidableEq

/-- A Slack channel message as consumed by `batch_job`: timestamp
identifier, author, text, and the optional thread-root timestamp. -/
structure Message where
  ts : Nat
  user : Option Str
  text : Str
  thread_ts : Option Nat
deriving DecidableEq

/-- A thread reply as consumed by the dedup check: only its author
(`reply.get("user")`, bot.py line 197) matters. -/
structure Reply where
  user : Option Str
deriving DecidableEq

/-- A reply posted by the bot: the thread timestamp it is anchored to
(`thread_ts=ts`, bot.py line 231) and its text. -/
structure Post where
  thread : Nat
  text : Str
deriving DecidableEq

/-- The external world: the bot's identity and channel window (already
resolved, bot.py lines 152-170), plus one function per network
collaborator.  `replies t = none` models `conversations_replies`
raising for thread `t`; `video u = none` models yt-dlp raising;
`http u = none` models the caption fetch/parse raising; `gen p` is the
Gemini call on prompt `p`.  `postOk t` tells whether `chat_postMessage`
to thread `t` succeeds. -/
structure World where
  botId : Str
  messages : List Message
  replies : Nat → Option (List Reply)
  postOk : Nat → Bool
  video : Str → Option VideoInfo
  http : Str → Option Json3Data
  apiKey : Option Str
  gen : Str → Except Str Str

/-- Python `captions = info.get('automatic_captions') or
info.get('subtitles')` (bot.py line 36): the left operand wins unless it
is falsy (absent or the empty dict). -/
def pyOrDict (a b : Option (List (Str × List Track))) :
    Option (List (Str × List Track)) :=
  match a with
  | some m => if m.isEmpty then b else some m
  | none => b

/-- The texts of one json3 event, in document order (bot.py
lines 59-63). -/
def eventTexts (e : CaptionEvent) : List Str :=
  match e.segs with
  | none => []
  | some segs => segs.filterMap (fun s => s.utf8)

/-- All segment texts of a json3 payload in document order: the
`text_parts` list of bot.py lines 58-63. -/
def json3TextParts (d : Json3Data) : List Str :=
  (d.events.map eventTexts).flatten

/-- Transcript extraction from a chosen caption manifest (bot.py
lines 42-72): first language key starting with `en`, first track of
format `json3`, fetch its payload, concatenate all segment texts with
no separator (`"".join(text_parts)`); every failure leg yields the
empty transcript. -/
def transcriptFromCaptions (w : World) (captions : List (Str × List Track)) : Str :=
  match captions.find? (fun kv => (("en").toList).isPrefixOf kv.1) with
  | none => []
  | some kv =>
    match kv.2.find? (fun t => t.ext == (("json3").toList)) with
    | none => []
    | some tr =>
      match w.http tr.url with
      | none => []
      | some d => (json3TextParts d).flatten

/-- The transcript block of `get_video_data` (bot.py lines 34-72):
choose the caption manifest with Python `or`, then extract; transcript
stays empty when no manifest is truthy. -/
def videoTranscript (w : World) (info : VideoInfo) : Str :=
  match pyOrDict info.automatic_captions info.subtitles with
  | none => []
  | some captions => transcriptFromCaptions w captions

/-- The resolver `get_video_data` (bot.py lines 14-78).  `none` is the
`(None, None, None)` return of the outer exception handler; otherwise
title and description fall back to their sentinels and the transcript
is extracted from the caption manifests. -/
def get_video_data (w : World) (url : Str) : Option (Str × Str × Str) :=
  match w.video url with
  | none => none
  | some info =>
    some (info.title.getD (("Unknown Title").toList),
      info.description.getD (("No description found.").toList),
      videoTranscript w info)

/-- Python `github_url or "N/A"` inside the prompt f-string (bot.py
line 125). -/
def pyOrStr (a b : Str) : Str := if a.isEmpty then b else a

/-- Prompt template up to the title hole (bot.py lines 95-103). -/
def promptP1 : Str :=
  ("\nYou are a senior QA Engineer and GitHub trends analyst, expert in API testing, automation, and SRE.\n\nAnalyze the following GitHub-trends YouTube video and return a SHORT, SLACK-FRIENDLY message.\n\nUser context: Mid-senior QA at a sportsbook platform, building ReportPortal visualizers, Slack workflows, and IoT smart locks.\n\nVIDEO META\nTitle: ").toList

/-- Prompt template between the title and repo-URL holes (bot.py
line 104). -/
def promptP2 : Str := ("\nRepo URL: ").toList

/-- Prompt template between the repo-URL and description holes (bot.py
line 105). -/
def promptP3 : Str := ("\nDescription: ").toList

/-- Prompt template between the description and transcript holes
(bot.py lines 107-108). -/
def promptP4 : Str := ("\n\nTRANSCRIPT (TRUNCATED)\n").toList

/-- Prompt template between the transcript hole and the repo-link
section hole (bot.py lines 110-125). -/
def promptP5 : Str :=
  ("\n\nFORMAT YOUR ANSWER EXACTLY LIKE THIS (INCLUDING BLANK LINES):\n\n*Summary*\n[1-2 sentences max. No line breaks here.]\n\n*Key Takeaways & QA*\n- [Bullet 1 - max 1 line]\n- [Bullet 2 - max 1 line]\n- [Bullet 3 - max 1 line]\n\n*Project Ideas*\n1. **Work repo automation:** [one sentence, focus on CI/CD, API testing, k6, ReportPortal]\n2. **Personal IoT:** [one sentence, focus side projects]\n\n*GitHub repo link*\n").toList

/-- Prompt template after the repo-link section hole (bot.py
lines 127-132). -/
def promptP6 : Str :=
  ("\n\nRULES\n- Max 180 words total.\n- Add a blank line between sections.\n- Do NOT merge sections together; each heading must be followed by its own content and then a blank line.\n- Use only top-3, most actionable ideas for this specific user.\n").toList

/-- The full prompt f-string of `analyze_transcript` (bot.py
lines 95-132), with the transcript hole truncated to 25000 characters
(`transcript_text[:25000]`, line 108). -/
def buildPrompt (transcript_text video_title video_description github_url : Str) : Str :=
  promptP1 ++ video_title ++ promptP2 ++ github_url ++ promptP3 ++
    video_description ++ promptP4 ++ transcript_text.take 25000 ++
    promptP5 ++ pyOrStr github_url (("N/A").toList) ++ promptP6

/-- The digest generator `analyze_transcript` (bot.py lines 86-138):
missing credential and generation failure both return literal error
strings instead of raising. -/
def analyze_transcript (w : World)
    (transcript_text video_title video_description github_url : Str) : Str :=
  match w.apiKey with
  | none => ("Error: GEMINI_API_KEY not found.").toList
  | some _ =>
    match w.gen (buildPrompt transcript_text video_title video_description github_url) with
    | .ok t => t
    | .error e => ("Error generating AI analysis: ").toList ++ e

/-- The already-replied test of bot.py lines 195-199: some fetched
reply's author equals the bot's own identity. -/
def dedupCheck (botId : Str) (rs : List Reply) : Bool :=
  rs.any (fun r => r.user == some botId)

/-- Thread resolution of bot.py lines 185-188: the message's
`thread_ts` if present, otherwise its own `ts`. -/
def resolvedThread (m : Message) : Nat := m.thread_ts.getD m.ts

/-- The bot-authored replies that the live thread fetch additionally
sees for thread `t` because of posts made earlier in the same run and
actually delivered (`chat_postMessage` succeeded). -/
def livePosts (w : World) (posts : List Post) (t : Nat) : List Reply :=
  (posts.filter (fun p => p.thread == t && w.postOk p.thread)).map
    (fun _ => ⟨some w.botId⟩)

/-- The thread-reply fetch (`conversations_replies`, bot.py line 192)
as seen mid-run: the channel's own replies for the thread followed by
this run's delivered posts to it; `none` when the fetch raises. -/
def fetchReplies (w : World) (posts : List Post) (t : Nat) : Option (List Reply) :=
  match w.replies t with
  | none => none
  | some base => some (base ++ livePosts w posts t)

/-- The message loop of `batch_job` (bot.py lines 172-239), given the
posts already made this run.  Returns the posts this call makes (in
order) and the `ts` of every message it examines, in order: skip legs
recurse, the already-replied leg breaks the whole loop, the success leg
posts the analysis as a threaded reply anchored at the message's own
`ts`. -/
def runLoop (w : World) : List Post → List Message → List Post × List Nat
  | _, [] => ([], [])
  | posts, m :: rest =>
    match findUrl m.text with
    | none =>
      let r := runLoop w posts rest
      (r.1, m.ts :: r.2)
    | some url =>
      match fetchReplies w posts (resolvedThread m) with
      | none =>
        let r := runLoop w posts rest
        (r.1, m.ts :: r.2)
      | some rs =>
        if dedupCheck w.botId rs then ([], [m.ts])
        else
          match get_video_data w url with
          | none =>
            let r := runLoop w posts rest
            (r.1, m.ts :: r.2)
          | some (title, description, transcript) =>
            if title.isEmpty || transcript.isEmpty then
              let r := runLoop w posts rest
              (r.1, m.ts :: r.2)
            else
              let github_url := (findAllGithub description).headD (("N/A").toList)
              let analysis := analyze_transcript w transcript title description github_url
              let p : Post := ⟨m.ts, analysis⟩
              let r := runLoop w (posts ++ [p]) rest
              (p :: r.1, m.ts :: r.2)

/-- All replies one batch run posts, in order (bot.py lines 226-233). -/
def batchPosts (w : World) : List Post := (runLoop w [] w.messages).1

/-- The `ts` of every message one batch run examines, in order. -/
def batchVisited (w : World) : List Nat := (runLoop w [] w.messages).2

/-- The channel as the next batch run sees it: the same window of
messages, each thread's replies extended by the delivered posts of the
previous run. -/
def stepWorld (w : World) : World :=
  { w with replies := fun t => fetchReplies w (batchPosts w) t }

/-- Modelled from the spec: the character class of the 11-character
video identifier used by the Link Extractor of the page-scrape draft,
which is not under src/. -/
def idChar (c : Char) : Bool := c.isAlphanum || c == '-' || c == '_'

/-- Modelled from the spec: the markers after which the 11-character
identifier may appear in a YouTube URL. -/
def idMarkers : List Str :=
  [("youtu.be/").toList, ("v=").toList, ("embed/").toList, ("shorts/").toList]

/-- Modelled from the spec: try to read an identifier right after a
marker anchored at the head of `cs`. -/
def extractIdAt (cs : List Char) : Option Str :=
  match idMarkers.find? (fun p => p.isPrefixOf cs) with
  | none => none
  | some p =>
    let tok := ((cs.drop p.length).takeWhile idChar).take 11
    if tok.length = 11 then some tok else none

/-- Modelled from the spec: the identifier extraction of the Link
Extractor (spec 4.1), a permissive pattern tolerant of surrounding
path/query syntax; the full URL is kept as fallback reference when no
identifier can be isolated, which `none` signals here. -/
def extract_video_id : List Char → Option Str
  | [] => none
  | c :: cs =>
    match extractIdAt (c :: cs) with
    | some s => some s
    | none => extract_video_id cs

/-- Spec-side predicate: the message text contains a recognizable video
link (invariant condition (a)). -/
def hasLink (m : Message) : Bool := (findUrl m.text).isSome

/-- Spec-side predicate: the channel's replies for the message's
resolved thread contain a bot-authored reply (read off the world,
before any posts of the current run). -/
def threadBotReply (w : World) (m : Message) : Bool :=
  match w.replies (resolvedThread m) with
  | none => false
  | some rs => dedupCheck w.botId rs

/-- Spec-side predicate: the thread-reply fetch for the message fails. -/
def fetchFailsFor (w : World) (m : Message) : Bool :=
  (w.replies (resolvedThread m)).isNone

/-- Spec-side predicate: examining this message terminates the batch
(link found, reply fetch succeeds, bot already replied). -/
def stopsAt (w : World) (m : Message) : Bool :=
  hasLink m && threadBotReply w m

/-- Spec-side predicate: video resolution succeeds for the message with
a non-empty title and a non-empty transcript (invariant condition (c)
plus the title check of bot.py line 216). -/
def videoOkFor (w : World) (m : Message) : Bool :=
  match findUrl m.text with
  | none => false
  | some url =>
    match get_video_data w url with
    | none => false
    | some (t, _, tr) => !t.isEmpty && !tr.isEmpty

/-- Spec-side predicate: the loop, on reaching this message, posts a
digest reply for it. -/
def postedFor (w : World) (m : Message) : Bool :=
  hasLink m && !fetchFailsFor w m && !threadBotReply w m && videoOkFor w m

/-- The digest post the loop makes for an eligible message. -/
def mkPost (w : World) (m : Message) : Post :=
  match findUrl m.text with
  | none => ⟨m.ts, []⟩
  | some url =>
    match get_video_data w url with
    | none => ⟨m.ts, []⟩
    | some (t, d, tr) =>
      ⟨m.ts, analyze_transcript w tr t d ((findAllGithub d).headD (("N/A").toList))⟩

/-- The window prefix the batch scans before its early-stop sentinel. -/
def stopFree (w : World) (msgs : List Message) : List Message :=
  msgs.takeWhile (fun m => !stopsAt w m)

/-- Closed form of the posts one run makes on a window. -/
def postsSpec (w : World) (msgs : List Message) : List Post :=
  ((stopFree w msgs).filter (fun m => postedFor w m)).map (mkPost w)

/-- Closed form of the examined messages: the stop-free prefix followed
by the stopping message, when there is one. -/
def visitedSpec (w : World) (msgs : List Message) : List Nat :=
  (stopFree w msgs).map (fun m => m.ts) ++
    (((msgs.dropWhile (fun m => !stopsAt w m)).head?).map (fun m => m.ts)).toList

/-- A world identical to `w` except that resolving `url` yields `i`:
used to vary one video's extractor result while keeping every other
collaborator fixed. -/
def setVideo (w : World) (url : Str) (i : VideoInfo) : World :=
  { w with video := fun u => if u = url then some i else w.video u }

/-- The bot identity used by the concrete example worlds. -/
def botStr : Str := ("BOT").toList

/-- The video URL used by the concrete example worlds. -/
def urlWit : Str := ("https://youtu.be/abcdefghijk").toList

/-- A channel message carrying a video link. -/
def mWit : Message :=
  ⟨100, some (("alice").toList), ("see https://youtu.be/abcdefghijk ok").toList, none⟩

/-- A json3 caption track for the example video. -/
def trackWit : Track := ⟨("json3").toList, ("capurl").toList⟩

/-- Extractor output for the example video: title, description, one
auto-generated English caption track. -/
def infoWit : VideoInfo :=
  ⟨some (("T").toList), some (("D").toList),
    some [((("en").toList), [trackWit])], none⟩

/-- A json3 payload with text segments spread over several events. -/
def j3Wit : Json3Data :=
  ⟨[⟨some [⟨some (("hello ").toList)⟩, ⟨none⟩]⟩, ⟨none⟩,
    ⟨some [⟨some (("world").toList)⟩]⟩]⟩

/-- Example world: a single fresh link-bearing message, captions
available, credentials missing. -/
def wWit : World :=
  { botId := botStr
    messages := [mWit]
    replies := fun t => if t = 100 then some [] else none
    postOk := fun _ => true
    video := fun u => if u = urlWit then some infoWit else none
    http := fun u => if u = trackWit.url then some j3Wit else none
    apiKey := none
    gen := fun _ => .error (("boom").toList) }

/-- The world `wWit` with a credential present (its generation call
still fails). -/
def wGen : World := { wWit with apiKey := some (("k").toList) }

/-- A newest message whose thread already holds a bot reply. -/
def mStop : Message :=
  ⟨10, none, ("a https://youtu.be/abcdefghijk").toList, none⟩

/-- An older fresh link-bearing message behind `mStop`. -/
def mNext : Message :=
  ⟨5, none, ("b https://youtu.be/abcdefghijk").toList, none⟩

/-- Example world whose newest candidate is already replied to, with an
eligible older candidate behind it. -/
def wStop : World :=
  { botId := botStr
    messages := [mStop, mNext]
    replies := fun t =>
      if t = 10 then some [⟨some botStr⟩]
      else if t = 5 then some [] else none
    postOk := fun _ => true
    video := fun u => if u = urlWit then some infoWit else none
    http := fun u => if u = trackWit.url then some j3Wit else none
    apiKey := none
    gen := fun _ => .error (("boom").toList) }

/-- A message without any video link. -/
def mPlain : Message := ⟨20, none, ("no links here").toList, none⟩

/-- The world `wStop` with a link-free message in front of the stopping
one. -/
def wStop3 : World :=
  { wStop with
    messages := [mPlain, mStop, mNext]
    replies := fun t =>
      if t = 10 then some [⟨some botStr⟩]
      else if t = 5 then some []
      else if t = 20 then some [] else none }

/-- A link-free message whose thread holds a bot reply. -/
def mQuiet : Message := ⟨10, none, ("nothing").toList, none⟩

/-- A link-free message with an empty thread. -/
def mQuiet2 : Message := ⟨5, none, ("nothing either").toList, none⟩

/-- Example world whose first message has a bot-replied thread but no
video link. -/
def wQuiet : World :=
  { botId := botStr
    messages := [mQuiet, mQuiet2]
    replies := fun t =>
      if t = 10 then some [⟨some botStr⟩]
      else if t = 5 then some [] else none
    postOk := fun _ => true
    video := fun _ => none
    http := fun _ => none
    apiKey := none
    gen := fun _ => .error [] }

/-- A reply list containing a bot-authored reply. -/
def rsWit : List Reply := [⟨some (("u1").toList)⟩, ⟨some botStr⟩]

/-- A link-bearing message in a world whose reply fetches all fail. -/
def mFail : Message :=
  ⟨7, none, ("x https://youtu.be/abcdefghijk").toList, none⟩

/-- Example world whose thread-reply fetches always fail. -/
def wFail : World := { wWit with messages := [mFail], replies := fun _ => none }

/-- Extractor output with no title or description keys. -/
def infoNoMeta : VideoInfo :=
  ⟨none, none, some [((("en").toList), [trackWit])], none⟩

/-- Example world where metadata fields are missing and the caption
fetch always fails. -/
def wNoHttp : World :=
  { wWit with
    video := fun u => if u = urlWit then some infoNoMeta else none
    http := fun _ => none }

/-- A caption manifest whose first key is not English and whose English
track list holds a non-json3 format before the json3 one. -/
def captions6 : List (Str × List Track) :=
  [((("de").toList), []),
   ((("en-US").toList),
     [⟨("vtt").toList, ("u1").toList⟩, ⟨("json3").toList, ("u2").toList⟩])]

/-- Example world serving the json3 payload for the `captions6`
track. -/
def w6 : World :=
  { wWit with http := fun u => if u = ("u2").toList then some j3Wit else none }

/-- A transcript one character longer than the cap. -/
def longTr : Str := List.replicate 25001 'a'

/-- The reply text the example world posts for its one candidate. -/
def c8Post : Post :=
  ⟨mWit.ts, analyze_transcript wWit (("hello world").toList) (("T").toList)
    (("D").toList) ((findAllGithub (("D").toList)).headD (("N/A").toList))⟩

/-- The scenario message text of the spec's testable property. -/
def c5Text : Str := ("check this out https://youtu.be/dQw4w9WgXcQ").toList

/-- The scenario video description containing one repository link. -/
def c5Desc : Str := ("Demo tools: https://github.com/acme/widget").toList

/-- The scenario repository link. -/
def c5Repo : Str := ("https://github.com/acme/widget").toList

/-- The "GitHub repo link" section heading of the prompt template. -/
def ghHeading : Str := ("*GitHub repo link*\n").toList

/-- The piece of `promptP5` up to (excluding) the repo-link section
heading. -/
def promptP5a : Str :=
  ("\n\nFORMAT YOUR ANSWER EXACTLY LIKE THIS (INCLUDING BLANK LINES):\n\n*Summary*\n[1-2 sentences max. No line breaks here.]\n\n*Key Takeaways & QA*\n- [Bullet 1 - max 1 line]\n- [Bullet 2 - max 1 line]\n- [Bullet 3 - max 1 line]\n\n*Project Ideas*\n1. **Work repo automation:** [one sentence, focus on CI/CD, API testing, k6, ReportPortal]\n2. **Personal IoT:** [one sentence, focus side projects]\n\n").toList

/-- The piece of `promptP6` after its leading newline. -/
def promptP6tail : Str :=
  ("\nRULES\n- Max 180 words total.\n- Add a blank line between sections.\n- Do NOT merge sections together; each heading must be followed by its own content and then a blank line.\n- Use only top-3, most actionable ideas for this specific user.\n").toList

/-- When no post so far targets thread `t`, the live view adds nothing. -/
lemma livePosts_nil (w : World) (posts : List Post) (t : Nat)
    (h : ∀ p ∈ posts, p.thread ≠ t) : livePosts w posts t = [] := by
  unfold livePosts
  have hf : posts.filter (fun p => p.thread == t && w.postOk p.thread) = [] := by
    apply List.filter_eq_nil_iff.mpr
    intro p hp
    simp [h p hp]
  rw [hf]
  rfl

/-- When no post so far targets thread `t`, the mid-run fetch agrees
with the channel's own replies. -/
lemma fetchReplies_of_clean (w : World) (posts : List Post) (t : Nat)
    (h : ∀ p ∈ posts, p.thread ≠ t) : fetchReplies w posts t = w.replies t := by
  unfold fetchReplies
  cases hr : w.replies t with
  | none => rfl
  | some base => rw [livePosts_nil w posts t h]; simp

/-- The already-replied test is monotone under appending replies. -/
lemma dedupCheck_append_left (b : Str) (rs ex : List Reply)
    (h : dedupCheck b rs = true) : dedupCheck b (rs ++ ex) = true := by
  unfold dedupCheck at h ⊢
  rw [List.any_append, h, Bool.true_or]

/-- Every post the loop makes is anchored at the `ts` of one of the
messages it was given. -/
lemma runLoop_post_thread_mem (w : World) :
    ∀ (msgs : List Message) (posts : List Post) (p : Post),
      p ∈ (runLoop w posts msgs).1 → p.thread ∈ msgs.map (fun m => m.ts) := by
  intro msgs
  induction msgs with
  | nil =>
    intro posts p hp
    simp [runLoop] at hp
  | cons m rest ih =>
    intro posts p hp
    simp only [List.map_cons, List.mem_cons]
    cases hurl : findUrl m.text with
    | none =>
      simp only [runLoop, hurl] at hp
      exact Or.inr (ih posts p hp)
    | some url =>
      cases hfr : fetchReplies w posts (resolvedThread m) with
      | none =>
        simp only [runLoop, hurl, hfr] at hp
        exact Or.inr (ih posts p hp)
      | some rs =>
        cases hd : dedupCheck w.botId rs with
        | true =>
          simp only [runLoop, hurl, hfr, hd, if_true] at hp
          simp at hp
        | false =>
          cases hv : get_video_data w url with
          | none =>
            simp only [runLoop, hurl, hfr, hd, Bool.false_eq_true, if_false, hv] at hp
            exact Or.inr (ih posts p hp)
          | some tdtr =>
            obtain ⟨t, d, tr⟩ := tdtr
            cases hemp : (t.isEmpty || tr.isEmpty) with
            | true =>
              simp only [runLoop, hurl, hfr, hd, Bool.false_eq_true, if_false, hv,
                hemp, if_true] at hp
              exact Or.inr (ih posts p hp)
            | false =>
              simp only [runLoop, hurl, hfr, hd, Bool.false_eq_true, if_false, hv,
                hemp] at hp
              rcases List.mem_cons.mp hp with h1 | h2
              · left; rw [h1]
              · exact Or.inr (ih _ p h2)

/-- The first satisfying element returned by `List.find?` satisfies the
predicate and everything before it refutes it. -/
lemma find?_split {α : Type} (p : α → Bool) :
    ∀ (l : List α) (a : α), l.find? p = some a →
      p a = true ∧ ∃ l1 l2, l = l1 ++ a :: l2 ∧ ∀ b ∈ l1, p b = false := by
  intro l
  induction l with
  | nil =>
    intro a h
    simp [List.find?] at h
  | cons x xs ih =>
    intro a h
    cases hx : p x with
    | true =>
      rw [List.find?_cons_of_pos _ hx] at h
      obtain rfl : x = a := by injection h
      exact ⟨hx, [], xs, rfl, by intro b hb; simp at hb⟩
    | false =>
      rw [List.find?_cons_of_neg _ (by simp [hx])] at h
      obtain ⟨hpa, l1, l2, hsplit, hl1⟩ := ih a h
      refine ⟨hpa, x :: l1, l2, by rw [hsplit]; rfl, ?_⟩
      intro b hb
      rcases List.mem_cons.mp hb with rfl | hb'
      · exact hx
      · exact hl1 b hb'

/-- The functions `takeWhile` and `dropWhile` cut exactly at the first
index refuting the predicate. -/
lemma takeWhile_eq_take_of_first {α : Type} (p : α → Bool) :
    ∀ (l : List α) (k : Nat) (hk : k < l.length),
      (∀ i, (hi : i < k) → p (l.get ⟨i, Nat.lt_trans hi hk⟩) = true) →
      p (l.get ⟨k, hk⟩) = false →
      l.takeWhile p = l.take k ∧ l.dropWhile p = l.drop k := by
  intro l
  induction l with
  | nil =>
    intro k hk
    simp at hk
  | cons x xs ih =>
    intro k hk htrue hfalse
    cases k with
    | zero =>
      have hx : p x = false := hfalse
      constructor
      · rw [List.takeWhile_cons, hx]; simp
      · rw [List.dropWhile_cons, hx]; simp
    | succ k' =>
      have hx : p x = true := htrue 0 (Nat.succ_pos k')
      have hk' : k' < xs.length := Nat.lt_of_succ_lt_succ hk
      have htrue' : ∀ i, (hi : i < k') → p (xs.get ⟨i, Nat.lt_trans hi hk'⟩) = true := by
        intro i hi
        exact htrue (i + 1) (Nat.succ_lt_succ hi)
      have hfalse' : p (xs.get ⟨k', hk'⟩) = false := hfalse
      obtain ⟨h1, h2⟩ := ih k' hk' htrue' hfalse'
      constructor
      · rw [List.takeWhile_cons, hx]; simp [h1]
      · rw [List.dropWhile_cons, hx]; simp [h2]

/-- The head of `drop k` is the element at index `k`. -/
lemma head?_drop_eq {α : Type} :
    ∀ (l : List α) (k : Nat) (hk : k < l.length),
      (l.drop k).head? = some (l.get ⟨k, hk⟩) := by
  intro l
  induction l with
  | nil =>
    intro k hk
    simp at hk
  | cons x xs ih =>
    intro k hk
    cases k with
    | zero => rfl
    | succ k' => exact ih k' (Nat.lt_of_succ_lt_succ hk)

/-- Unfolding the scan prefix one message at a time. -/
lemma stopFree_cons (w : World) (m : Message) (rest : List Message) :
    stopFree w (m :: rest) =
      if stopsAt w m then [] else m :: stopFree w rest := by
  simp only [stopFree, List.takeWhile_cons]
  cases stopsAt w m <;> simp

/-- Unfolding the posts closed form one message at a time. -/
lemma postsSpec_cons (w : World) (m : Message) (rest : List Message) :
    postsSpec w (m :: rest) =
      if stopsAt w m then []
      else (if postedFor w m then [mkPost w m] else []) ++ postsSpec w rest := by
  simp only [postsSpec, stopFree_cons]
  cases hs : stopsAt w m
  · cases hp : postedFor w m <;> simp [List.filter_cons, hp]
  · simp

/-- Unfolding the visited closed form one message at a time. -/
lemma visitedSpec_cons (w : World) (m : Message) (rest : List Message) :
    visitedSpec w (m :: rest) =
      if stopsAt w m then [m.ts] else m.ts :: visitedSpec w rest := by
  simp only [visitedSpec, stopFree_cons, List.dropWhile_cons]
  cases hs : stopsAt w m <;> simp

/-- Closed form of one batch run.  Under the channel data model (each
window message roots its own thread, timestamps are distinct, and no
prior post of this run targets a window message), the loop posts
exactly for the eligible messages of the stop-free prefix and examines
exactly that prefix plus the stopping message. -/
theorem runLoop_eq (w : World) :
    ∀ (msgs : List Message) (posts : List Post),
      (∀ m ∈ msgs, resolvedThread m = m.ts) →
      ((msgs.map (fun m => m.ts)).Nodup) →
      (∀ p ∈ posts, ∀ m ∈ msgs, p.thread ≠ m.ts) →
      runLoop w posts msgs = (postsSpec w msgs, visitedSpec w msgs) := by
  intro msgs
  induction msgs with
  | nil =>
    intro posts _ _ _
    simp [runLoop, postsSpec, visitedSpec, stopFree]
  | cons m rest ih =>
    intro posts H1 H2 H3
    have hrt : resolvedThread m = m.ts := H1 m (by simp)
    have hclean : ∀ p ∈ posts, p.thread ≠ m.ts := fun p hp => H3 p hp m (by simp)
    have hfr : fetchReplies w posts (resolvedThread m) = w.replies m.ts := by
      rw [hrt]
      exact fetchReplies_of_clean w posts m.ts hclean
    have H1' : ∀ m' ∈ rest, resolvedThread m' = m'.ts :=
      fun m' h => H1 m' (by simp [h])
    have hmap : (m.ts :: rest.map (fun m => m.ts)).Nodup := by simpa using H2
    have hnodup := List.nodup_cons.mp hmap
    have hts : m.ts ∉ rest.map (fun m => m.ts) := hnodup.1
    have H2' : (rest.map (fun m => m.ts)).Nodup := hnodup.2
    have H3' : ∀ p ∈ posts, ∀ m' ∈ rest, p.thread ≠ m'.ts :=
      fun p hp m' h => H3 p hp m' (by simp [h])
    cases hurl : findUrl m.text with
    | none =>
      have hstop : stopsAt w m = false := by simp [stopsAt, hasLink, hurl]
      have hpost : postedFor w m = false := by simp [postedFor, hasLink, hurl]
      simp only [runLoop, hurl, ih posts H1' H2' H3', postsSpec_cons, visitedSpec_cons,
        hstop, hpost, Bool.false_eq_true, if_false, List.nil_append]
    | some url =>
      cases hrep : w.replies m.ts with
      | none =>
        have hstop : stopsAt w m = false := by
          simp [stopsAt, threadBotReply, hrt, hrep]
        have hpost : postedFor w m = false := by
          simp [postedFor, fetchFailsFor, hrt, hrep]
        rw [hrep] at hfr
        simp only [runLoop, hurl, hfr, ih posts H1' H2' H3', postsSpec_cons,
          visitedSpec_cons, hstop, hpost, Bool.false_eq_true, if_false, List.nil_append]
      | some rs =>
        rw [hrep] at hfr
        cases hd : dedupCheck w.botId rs with
        | true =>
          have hstop : stopsAt w m = true := by
            simp [stopsAt, hasLink, hurl, threadBotReply, hrt, hrep, hd]
          simp only [runLoop, hurl, hfr, hd, if_true, postsSpec_cons, visitedSpec_cons,
            hstop]
        | false =>
          have hstop : stopsAt w m = false := by
            simp [stopsAt, threadBotReply, hrt, hrep, hd]
          cases hv : get_video_data w url with
          | none =>
            have hpost : postedFor w m = false := by
              simp [postedFor, videoOkFor, hurl, hv]
            simp only [runLoop, hurl, hfr, hd, Bool.false_eq_true, if_false, hv,
              ih posts H1' H2' H3', postsSpec_cons, visitedSpec_cons, hstop, hpost,
              List.nil_append]
          | some tdtr =>
            obtain ⟨t, d, tr⟩ := tdtr
            cases hemp : (t.isEmpty || tr.isEmpty) with
            | true =>
              have hpost : postedFor w m = false := by
                rcases Bool.or_eq_true_iff.mp hemp with he | he <;>
                  simp [postedFor, videoOkFor, hurl, hv, he]
              simp only [runLoop, hurl, hfr, hd, Bool.false_eq_true, if_false, hv,
                hemp, if_true, ih posts H1' H2' H3', postsSpec_cons, visitedSpec_cons,
                hstop, hpost, List.nil_append]
            | false =>
              have hpost : postedFor w m = true := by
                rcases Bool.or_eq_false_iff.mp hemp with ⟨he1, he2⟩
                simp [postedFor, hasLink, hurl, fetchFailsFor, hrt, hrep,
                  threadBotReply, hd, videoOkFor, hv, he1, he2]
              have hmk : mkPost w m =
                  ⟨m.ts, analyze_transcript w tr t d
                    ((findAllGithub d).headD (("N/A").toList))⟩ := by
                simp [mkPost, hurl, hv]
              have H3'' : ∀ p ∈ posts ++
                  [(⟨m.ts, analyze_transcript w tr t d
                    ((findAllGithub d).headD (("N/A").toList))⟩ : Post)],
                  ∀ m' ∈ rest, p.thread ≠ m'.ts := by
                intro p hp m' hm'
                rcases List.mem_append.mp hp with h | h
                · exact H3' p h m' hm'
                · simp at h
                  rw [h]
                  intro hcontra
                  apply hts
                  have hts' : m.ts = m'.ts := hcontra
                  rw [hts']
                  exact List.mem_map_of_mem _ hm'
              simp only [runLoop, hurl, hfr, hd, Bool.false_eq_true, if_false, hv,
                hemp, ih _ H1' H2' H3'', postsSpec_cons, visitedSpec_cons, hstop,
                hpost, if_true, hmk, List.singleton_append]

/-- A message whose resolved thread already holds a bot-authored reply
never receives a post during a run: the dedup check sees at least the
channel's own replies of that thread, so the loop breaks before posting
to it, and posts to other messages target other timestamps. -/
lemma no_post_when_replied (w : World) :
    ∀ (msgs : List Message) (posts : List Post) (m : Message),
      m ∈ msgs →
      ((msgs.map (fun m => m.ts)).Nodup) →
      (∀ p ∈ posts, p.thread ≠ m.ts) →
      threadBotReply w m = true →
      ∀ p ∈ (runLoop w posts msgs).1, p.thread ≠ m.ts := by
  intro msgs
  induction msgs with
  | nil =>
    intro posts m hm
    simp at hm
  | cons m0 rest ih =>
    intro posts m hm H2 hcleanm hrep p hp
    have hmap : (m0.ts :: rest.map (fun m => m.ts)).Nodup := by simpa using H2
    have hnodup := List.nodup_cons.mp hmap
    have hts0 : m0.ts ∉ rest.map (fun m => m.ts) := hnodup.1
    have H2' : (rest.map (fun m => m.ts)).Nodup := hnodup.2
    rcases List.mem_cons.mp hm with rfl | hmrest
    · -- the already-replied message heads the window
      obtain ⟨rs0, hrs0, hdrs0⟩ : ∃ rs0, w.replies (resolvedThread m) = some rs0 ∧
          dedupCheck w.botId rs0 = true := by
        unfold threadBotReply at hrep
        cases hr : w.replies (resolvedThread m) with
        | none => rw [hr] at hrep; simp at hrep
        | some rs0 => rw [hr] at hrep; exact ⟨rs0, rfl, hrep⟩
      cases hurl : findUrl m.text with
      | none =>
        simp only [runLoop, hurl] at hp
        intro hcontra
        apply hts0
        rw [← hcontra]
        exact runLoop_post_thread_mem w rest posts p hp
      | some url =>
        have hfr : fetchReplies w posts (resolvedThread m) =
            some (rs0 ++ livePosts w posts (resolvedThread m)) := by
          unfold fetchReplies
          rw [hrs0]
        have hd : dedupCheck w.botId (rs0 ++ livePosts w posts (resolvedThread m)) = true :=
          dedupCheck_append_left _ _ _ hdrs0
        simp only [runLoop, hurl, hfr, hd, if_true] at hp
        simp at hp
    · -- the already-replied message sits deeper in the window
      have hne : m0.ts ≠ m.ts := by
        intro hcontra
        apply hts0
        rw [hcontra]
        exact List.mem_map_of_mem _ hmrest
      cases hurl : findUrl m0.text with
      | none =>
        simp only [runLoop, hurl] at hp
        exact ih posts m hmrest H2' hcleanm hrep p hp
      | some url =>
        cases hfr : fetchReplies w posts (resolvedThread m0) with
        | none =>
          simp only [runLoop, hurl, hfr] at hp
          exact ih posts m hmrest H2' hcleanm hrep p hp
        | some rs =>
          cases hd : dedupCheck w.botId rs with
          | true =>
            simp only [runLoop, hurl, hfr, hd, if_true] at hp
            simp at hp
          | false =>
            cases hv : get_video_data w url with
            | none =>
              simp only [runLoop, hurl, hfr, hd, Bool.false_eq_true, if_false, hv] at hp
              exact ih posts m hmrest H2' hcleanm hrep p hp
            | some tdtr =>
              obtain ⟨t, d, tr⟩ := tdtr
              cases hemp : (t.isEmpty || tr.isEmpty) with
              | true =>
                simp only [runLoop, hurl, hfr, hd, Bool.false_eq_true, if_false, hv,
                  hemp, if_true] at hp
                exact ih posts m hmrest H2' hcleanm hrep p hp
              | false =>
                simp only [runLoop, hurl, hfr, hd, Bool.false_eq_true, if_false, hv,
                  hemp] at hp
                rcases List.mem_cons.mp hp with h1 | h2
                · rw [h1]
                  exact hne
                · refine ih _ m hmrest H2' ?_ hrep p h2
                  intro q hq
                  rcases List.mem_append.mp hq with h | h
                  · exact hcleanm q h
                  · simp at h
                    rw [h]
                    exact hne

/-- The post made for a message is anchored at that message's `ts`. -/
lemma mkPost_thread (w : World) (m : Message) : (mkPost w m).thread = m.ts := by
  unfold mkPost
  split
  · rfl
  · split
    · rfl
    · rfl

/-- C1: running the batch twice in succession against an otherwise
unchanged channel (the second run seeing the replies the first run
posted) posts no new reply for any window message already replied to by
the bot's own identity, so no source message is processed twice.
Timestamps are distinct per the channel data model. -/
theorem C1_no_reprocessing (w : World)
    (H2 : (w.messages.map (fun m => m.ts)).Nodup)
    (m : Message) (hm : m ∈ w.messages)
    (hrep : threadBotReply (stepWorld w) m = true) :
    ∀ p ∈ batchPosts (stepWorld w), p.thread ≠ m.ts :=
  no_post_when_replied (stepWorld w) w.messages [] m hm H2 (by simp) hrep

/-- Witness for C1 at a concrete world whose first run posts a reply. -/
theorem C1_no_reprocessing_witness :
    ((wWit.messages.map (fun m => m.ts)).Nodup ∧ mWit ∈ wWit.messages ∧
      threadBotReply (stepWorld wWit) mWit = true) ∧
    ∀ p ∈ batchPosts (stepWorld wWit), p.thread ≠ mWit.ts :=
  ⟨⟨by decide, by decide, by decide⟩,
    C1_no_reprocessing wWit (by decide) mWit (by decide) (by decide)⟩

/-- C4: the already-replied flag is true iff some fetched reply's
author equals the bot's identity; the thread root is the message's
`thread_ts` when recorded, its own `ts` otherwise; and a failing
thread-reply fetch skips just that candidate, continuing the batch
with nothing posted for it. -/
theorem C4_dedup_semantics :
    (∀ (botId : Str) (rs : List Reply),
        dedupCheck botId rs = true ↔ ∃ r ∈ rs, r.user = some botId)
    ∧ (∀ (m : Message),
        (m.thread_ts = none → resolvedThread m = m.ts) ∧
        ∀ t, m.thread_ts = some t → resolvedThread m = t)
    ∧ ∀ (w : World) (posts : List Post) (m : Message) (rest : List Message)
        (url : Str),
        findUrl m.text = some url →
        fetchReplies w posts (resolvedThread m) = none →
        runLoop w posts (m :: rest) =
          ((runLoop w posts rest).1, m.ts :: (runLoop w posts rest).2) := by
  refine ⟨?_, ?_, ?_⟩
  · intro botId rs
    simp [dedupCheck, List.any_eq_true]
  · intro m
    constructor
    · intro h
      simp [resolvedThread, h]
    · intro t h
      simp [resolvedThread, h]
  · intro w posts m rest url hurl hfr
    simp only [runLoop, hurl, hfr]

/-- Witness for C4 at a concrete reply list and a concrete world whose
reply fetch fails. -/
theorem C4_dedup_semantics_witness :
    (dedupCheck botStr rsWit = true ↔ ∃ r ∈ rsWit, r.user = some botStr)
    ∧ (findUrl mFail.text = some urlWit ∧
        fetchReplies wFail [] (resolvedThread mFail) = none ∧
        runLoop wFail [] (mFail :: []) =
          ((runLoop wFail [] []).1, mFail.ts :: (runLoop wFail [] []).2)) :=
  ⟨C4_dedup_semantics.1 botStr rsWit,
    by decide, by decide,
    C4_dedup_semantics.2.2 wFail [] mFail [] urlWit (by decide) (by decide)⟩

/-- C7: the prompt depends on the transcript only through its first
25000 characters, and for a transcript longer than the cap exactly
25000 transcript characters enter the prompt. -/
theorem C7_truncation (tr t d u : Str) (h : 25000 < tr.length) :
    buildPrompt tr t d u = buildPrompt (tr.take 25000) t d u ∧
    (tr.take 25000).length = 25000 := by
  constructor
  · unfold buildPrompt
    simp [List.take_take]
  · rw [List.length_take]
    omega

/-- Witness for C7 at a transcript exceeding the cap. -/
theorem C7_truncation_witness :
    25000 < longTr.length ∧
    (buildPrompt longTr [] [] [] = buildPrompt (longTr.take 25000) [] [] [] ∧
      (longTr.take 25000).length = 25000) :=
  ⟨by simp only [longTr, List.length_replicate]; omega,
    C7_truncation longTr [] [] []
      (by simp only [longTr, List.length_replicate]; omega)⟩

/-- C8: the digest generator is a total function returning literal
error strings when the credential is missing or generation fails, and
the loop posts whatever string it returns — the failing candidate is
replied to, not skipped. -/
theorem C8_degraded_visible :
    (∀ (w : World) (tr t d u : Str), w.apiKey = none →
        analyze_transcript w tr t d u = ("Error: GEMINI_API_KEY not found.").toList)
    ∧ (∀ (w : World) (tr t d u k e : Str), w.apiKey = some k →
        w.gen (buildPrompt tr t d u) = .error e →
        analyze_transcript w tr t d u = ("Error generating AI analysis: ").toList ++ e)
    ∧ ∀ (w : World) (posts : List Post) (m : Message) (rest : List Message)
        (url : Str) (rs : List Reply) (t d tr : Str),
        findUrl m.text = some url →
        fetchReplies w posts (resolvedThread m) = some rs →
        dedupCheck w.botId rs = false →
        get_video_data w url = some (t, d, tr) →
        t.isEmpty = false → tr.isEmpty = false →
        runLoop w posts (m :: rest) =
          (⟨m.ts, analyze_transcript w tr t d
              ((findAllGithub d).headD (("N/A").toList))⟩ ::
            (runLoop w (posts ++ [⟨m.ts, analyze_transcript w tr t d
              ((findAllGithub d).headD (("N/A").toList))⟩]) rest).1,
           m.ts :: (runLoop w (posts ++ [⟨m.ts, analyze_transcript w tr t d
              ((findAllGithub d).headD (("N/A").toList))⟩]) rest).2) := by
  refine ⟨?_, ?_, ?_⟩
  · intro w tr t d u h
    unfold analyze_transcript
    rw [h]
  · intro w tr t d u k e hk hg
    unfold analyze_transcript
    rw [hk, hg]
  · intro w posts m rest url rs t d tr hurl hfr hd hv he1 he2
    simp only [runLoop, hurl, hfr, hd, Bool.false_eq_true, if_false, hv, he1, he2,
      Bool.or_self]

/-- Witness for C8: missing credential, failing generation, and the
loop posting the analysis string, all at concrete inputs. -/
theorem C8_degraded_visible_witness :
    analyze_transcript wWit [] [] [] [] = ("Error: GEMINI_API_KEY not found.").toList
    ∧ analyze_transcript wGen (("x").toList) [] [] [] =
        ("Error generating AI analysis: ").toList ++ (("boom").toList)
    ∧ runLoop wWit [] (mWit :: []) =
        (c8Post :: (runLoop wWit ([] ++ [c8Post]) []).1,
          mWit.ts :: (runLoop wWit ([] ++ [c8Post]) []).2) :=
  ⟨C8_degraded_visible.1 wWit [] [] [] [] rfl,
    C8_degraded_visible.2.1 wGen (("x").toList) [] [] [] (("k").toList)
      (("boom").toList) rfl rfl,
    C8_degraded_visible.2.2 wWit [] mWit [] urlWit [] (("T").toList) (("D").toList)
      (("hello world").toList) (by decide) (by decide) (by decide) (by decide)
      (by decide) (by decide)⟩

/-- C9: the resolver does not propagate fetch errors.  A missing title
or description key falls back to its sentinel; an extractor failure
yields the fully-empty record; and when every caption sub-fetch fails
the caller still receives the best-effort record with an empty
transcript. -/
theorem C9_resolver_fallbacks :
    (∀ (w : World) (url : Str) (info : VideoInfo),
        w.video url = some info → info.title = none →
        get_video_data w url = some (("Unknown Title").toList,
          info.description.getD (("No description found.").toList),
          videoTranscript w info))
    ∧ (∀ (w : World) (url : Str) (info : VideoInfo),
        w.video url = some info → info.description = none →
        get_video_data w url = some (info.title.getD (("Unknown Title").toList),
          ("No description found.").toList, videoTranscript w info))
    ∧ (∀ (w : World) (url : Str), w.video url = none → get_video_data w url = none)
    ∧ ∀ (w : World) (url : Str) (info : VideoInfo),
        (∀ u, w.http u = none) → w.video url = some info →
        get_video_data w url =
          some (info.title.getD (("Unknown Title").toList),
            info.description.getD (("No description found.").toList), []) := by
  have htc : ∀ (w : World), (∀ u, w.http u = none) →
      ∀ c, transcriptFromCaptions w c = [] := by
    intro w hhttp c
    unfold transcriptFromCaptions
    cases hf : c.find? (fun kv => (("en").toList).isPrefixOf kv.1) with
    | none => rfl
    | some kv =>
      dsimp only
      cases hf2 : kv.2.find? (fun t => t.ext == (("json3").toList)) with
      | none => rfl
      | some tr =>
        dsimp only
        rw [hhttp tr.url]
  refine ⟨?_, ?_, ?_, ?_⟩
  · intro w url info hv ht
    unfold get_video_data
    rw [hv]
    dsimp only
    rw [ht]
    rfl
  · intro w url info hv hd
    unfold get_video_data
    rw [hv]
    dsimp only
    rw [hd]
    rfl
  · intro w url hv
    unfold get_video_data
    rw [hv]
  · intro w url info hhttp hv
    have hvt : videoTranscript w info = [] := by
      unfold videoTranscript
      cases hc : pyOrDict info.automatic_captions info.subtitles with
      | none => rfl
      | some c =>
        dsimp only
        exact htc w hhttp c
    unfold get_video_data
    rw [hv]
    dsimp only
    rw [hvt]

/-- Witness for C9 at a concrete world with missing metadata keys, a
concrete unresolvable URL, and all caption fetches failing. -/
theorem C9_resolver_fallbacks_witness :
    get_video_data wNoHttp urlWit = some (("Unknown Title").toList,
      infoNoMeta.description.getD (("No description found.").toList),
      videoTranscript wNoHttp infoNoMeta)
    ∧ get_video_data wNoHttp urlWit =
        some (infoNoMeta.title.getD (("Unknown Title").toList),
          ("No description found.").toList, videoTranscript wNoHttp infoNoMeta)
    ∧ get_video_data wWit (("zzz").toList) = none
    ∧ get_video_data wNoHttp urlWit =
        some (infoNoMeta.title.getD (("Unknown Title").toList),
          infoNoMeta.description.getD (("No description found.").toList), []) :=
  ⟨C9_resolver_fallbacks.1 wNoHttp urlWit infoNoMeta (by decide) rfl,
    C9_resolver_fallbacks.2.1 wNoHttp urlWit infoNoMeta (by decide) rfl,
    C9_resolver_fallbacks.2.2.1 wWit (("zzz").toList) (by decide),
    C9_resolver_fallbacks.2.2.2 wNoHttp urlWit infoNoMeta (fun u => rfl) (by decide)⟩

/-- C10: the Python `or` consults the manual manifest only when the
auto-generated one is absent or empty, and when the auto-generated one
is non-empty the resolver's whole output is unchanged by any
replacement of the manual manifest. -/
theorem C10_auto_over_manual :
    (∀ (b : Option (List (Str × List Track))), pyOrDict none b = b)
    ∧ (∀ (b : Option (List (Str × List Track))), pyOrDict (some []) b = b)
    ∧ (∀ (mc : List (Str × List Track)) (b : Option (List (Str × List Track))),
        mc ≠ [] → pyOrDict (some mc) b = some mc)
    ∧ ∀ (w : World) (url : Str) (info : VideoInfo) (mc : List (Str × List Track))
        (subs : Option (List (Str × List Track))),
        w.video url = some info → info.automatic_captions = some mc → mc ≠ [] →
        get_video_data (setVideo w url { info with subtitles := subs }) url =
          get_video_data w url := by
  have hor : ∀ (mc : List (Str × List Track)) (b : Option (List (Str × List Track))),
      mc ≠ [] → pyOrDict (some mc) b = some mc := by
    intro mc b hne
    unfold pyOrDict
    cases mc with
    | nil => exact absurd rfl hne
    | cons x xs => rfl
  refine ⟨fun b => rfl, fun b => rfl, hor, ?_⟩
  intro w url info mc subs hv hauto hne
  have hv' : (setVideo w url { info with subtitles := subs }).video url =
      some { info with subtitles := subs } := by
    unfold setVideo
    simp
  have hvt : videoTranscript (setVideo w url { info with subtitles := subs })
      { info with subtitles := subs } = videoTranscript w info := by
    unfold videoTranscript
    dsimp only
    rw [hauto, hor mc subs hne, hor mc info.subtitles hne]
    rfl
  unfold get_video_data
  rw [hv, hv']
  dsimp only
  rw [hvt]

/-- Witness for C10 at the concrete example extractor output, swapping
in a non-trivial manual manifest. -/
theorem C10_auto_over_manual_witness :
    pyOrDict none (some captions6) = some captions6
    ∧ pyOrDict (some []) (some captions6) = some captions6
    ∧ pyOrDict (some captions6) none = some captions6
    ∧ get_video_data
        (setVideo wWit urlWit { infoWit with subtitles := some captions6 }) urlWit =
      get_video_data wWit urlWit :=
  ⟨C10_auto_over_manual.1 (some captions6),
    C10_auto_over_manual.2.1 (some captions6),
    C10_auto_over_manual.2.2.1 captions6 none (by decide),
    C10_auto_over_manual.2.2.2 wWit urlWit infoWit [((("en").toList), [trackWit])]
      (some captions6) (by decide) (by decide) (by decide)⟩

/-- C6: transcript acquisition picks the first manifest key beginning
with `en`, within that track list picks the first `json3` format, and
produces the transcript as the separator-free concatenation of the
payload's segment texts in document order; every prefix of the segment
sequence concatenates to a prefix of the transcript, so temporal order
is preserved. -/
theorem C6_transcript_selection :
    (∀ (captions : List (Str × List Track)) (kv : Str × List Track),
        captions.find? (fun kv => (("en").toList).isPrefixOf kv.1) = some kv →
        ((("en").toList).isPrefixOf kv.1 = true ∧
          ∃ l1 l2, captions = l1 ++ kv :: l2 ∧
            ∀ kv' ∈ l1, (("en").toList).isPrefixOf kv'.1 = false))
    ∧ (∀ (tracks : List Track) (tr : Track),
        tracks.find? (fun t => t.ext == (("json3").toList)) = some tr →
        (tr.ext = ("json3").toList ∧
          ∃ l1 l2, tracks = l1 ++ tr :: l2 ∧ ∀ t ∈ l1, t.ext ≠ ("json3").toList))
    ∧ (∀ (w : World) (captions : List (Str × List Track)) (kv : Str × List Track)
        (tr : Track) (d : Json3Data),
        captions.find? (fun kv => (("en").toList).isPrefixOf kv.1) = some kv →
        kv.2.find? (fun t => t.ext == (("json3").toList)) = some tr →
        w.http tr.url = some d →
        transcriptFromCaptions w captions = (json3TextParts d).flatten)
    ∧ ∀ (d : Json3Data) (n : Nat),
        ((json3TextParts d).take n).flatten <+: (json3TextParts d).flatten := by
  refine ⟨?_, ?_, ?_, ?_⟩
  · intro captions kv h
    obtain ⟨hp, l1, l2, hsplit, hl1⟩ :=
      find?_split (fun kv => (("en").toList).isPrefixOf kv.1) captions kv h
    exact ⟨hp, l1, l2, hsplit, hl1⟩
  · intro tracks tr h
    obtain ⟨hp, l1, l2, hsplit, hl1⟩ :=
      find?_split (fun t => t.ext == (("json3").toList)) tracks tr h
    refine ⟨by simpa using hp, l1, l2, hsplit, ?_⟩
    intro t ht
    have := hl1 t ht
    simpa using this
  · intro w captions kv tr d hkv htr hd
    unfold transcriptFromCaptions
    rw [hkv]
    dsimp only
    rw [htr]
    dsimp only
    rw [hd]
  · intro d n
    refine ⟨((json3TextParts d).drop n).flatten, ?_⟩
    rw [← List.flatten_append, List.take_append_drop]

/-- Witness for C6 at a concrete manifest whose first key is not
English and whose chosen track is preceded by a non-json3 format. -/
theorem C6_transcript_selection_witness :
    ((("en").toList).isPrefixOf (("en-US").toList) = true ∧
      ∃ l1 l2, captions6 = l1 ++
          ((("en-US").toList),
            [⟨("vtt").toList, ("u1").toList⟩, ⟨("json3").toList, ("u2").toList⟩]) :: l2 ∧
        ∀ kv' ∈ l1, (("en").toList).isPrefixOf kv'.1 = false)
    ∧ ((⟨("json3").toList, ("u2").toList⟩ : Track).ext = ("json3").toList ∧
        ∃ l1 l2, [⟨("vtt").toList, ("u1").toList⟩,
            (⟨("json3").toList, ("u2").toList⟩ : Track)] = l1 ++
          (⟨("json3").toList, ("u2").toList⟩ : Track) :: l2 ∧
          ∀ t ∈ l1, t.ext ≠ ("json3").toList)
    ∧ transcriptFromCaptions w6 captions6 = (json3TextParts j3Wit).flatten
    ∧ ((json3TextParts j3Wit).take 1).flatten <+: (json3TextParts j3Wit).flatten :=
  ⟨C6_transcript_selection.1 captions6
      ((("en-US").toList),
        [⟨("vtt").toList, ("u1").toList⟩, ⟨("json3").toList, ("u2").toList⟩])
      (by decide),
    C6_transcript_selection.2.1
      [⟨("vtt").toList, ("u1").toList⟩, ⟨("json3").toList, ("u2").toList⟩]
      ⟨("json3").toList, ("u2").toList⟩ (by decide),
    C6_transcript_selection.2.2.1 w6 captions6
      ((("en-US").toList),
        [⟨("vtt").toList, ("u1").toList⟩, ⟨("json3").toList, ("u2").toList⟩])
      ⟨("json3").toList, ("u2").toList⟩ j3Wit (by decide) (by decide) (by decide),
    C6_transcript_selection.2.2.2 j3Wit 1⟩

set_option maxRecDepth 4000 in
/-- C5: for the scenario message, the link extractor returns the
`youtu.be` URL, the spec-modelled identifier isolation yields
`dQw4w9WgXcQ`, the description's repository-link list is exactly the
one GitHub URL, and the digest prompt's "GitHub repo link" section
holds exactly that URL on its own line. -/
theorem C5_scenario :
    findUrl c5Text = some (("https://youtu.be/dQw4w9WgXcQ").toList)
    ∧ extract_video_id (("https://youtu.be/dQw4w9WgXcQ").toList) =
        some (("dQw4w9WgXcQ").toList)
    ∧ findAllGithub c5Desc = [c5Repo]
    ∧ (("*GitHub repo link*\nhttps://github.com/acme/widget\n").toList) <:+:
        buildPrompt (("some transcript").toList) (("Some Title").toList) c5Desc c5Repo := by
  refine ⟨by decide, by decide, by decide, ?_⟩
  have hinf : (("*GitHub repo link*\nhttps://github.com/acme/widget\n").toList : Str) =
      ghHeading ++ c5Repo ++ ("\n").toList := by decide
  rw [hinf]
  refine ⟨promptP1 ++ (("Some Title").toList) ++ promptP2 ++ c5Repo ++ promptP3 ++
    c5Desc ++ promptP4 ++ ((("some transcript").toList).take 25000) ++ promptP5a,
    promptP6tail, ?_⟩
  have h5 : promptP5 = promptP5a ++ ghHeading := by decide
  have h6 : promptP6 = ("\n").toList ++ promptP6tail := by decide
  have hps : pyOrStr c5Repo (("N/A").toList) = c5Repo := rfl
  unfold buildPrompt
  rw [h5, h6, hps]
  simp [List.append_assoc]

/-- C2 (amended): under the channel data model (each window message
roots its own thread, distinct timestamps), a digest is posted for a
window message iff (a) its text has a video link, (b) its reply fetch
succeeds and finds no bot-authored reply, (c) video resolution returns
a non-empty transcript — and a non-empty title — and no newer window
message triggered the early stop (the message lies in the stop-free
prefix of the scan). -/
theorem C2_posted_iff_amended (w : World)
    (H1 : ∀ m ∈ w.messages, resolvedThread m = m.ts)
    (H2 : (w.messages.map (fun m => m.ts)).Nodup)
    (m : Message) (hm : m ∈ w.messages) :
    (∃ p ∈ batchPosts w, p.thread = m.ts) ↔
      (postedFor w m = true ∧ m ∈ stopFree w w.messages) := by
  have heq := runLoop_eq w w.messages [] H1 H2 (by simp)
  have hposts : batchPosts w = postsSpec w w.messages := by
    unfold batchPosts
    rw [heq]
  rw [hposts]
  constructor
  · rintro ⟨p, hp, hpt⟩
    unfold postsSpec at hp
    obtain ⟨m', hm', hmk⟩ := List.mem_map.mp hp
    have hm'f := List.mem_filter.mp hm'
    have hm'sf : m' ∈ stopFree w w.messages := hm'f.1
    have hm'msgs : m' ∈ w.messages :=
      (List.takeWhile_sublist (fun m => !stopsAt w m)).subset hm'sf
    have hts' : m'.ts = m.ts := by
      rw [← mkPost_thread w m', hmk]
      exact hpt
    have hmm : m' = m := List.inj_on_of_nodup_map H2 hm'msgs hm hts'
    rw [hmm] at hm'f hm'sf
    exact ⟨hm'f.2, hm'sf⟩
  · rintro ⟨hpost, hsf⟩
    refine ⟨mkPost w m, ?_, mkPost_thread w m⟩
    unfold postsSpec
    exact List.mem_map_of_mem _ (List.mem_filter.mpr ⟨hsf, hpost⟩)

/-- Witness for C2 (amended) at a concrete world whose one candidate
is fresh and resolvable. -/
theorem C2_posted_iff_amended_witness :
    ((∀ m ∈ wWit.messages, resolvedThread m = m.ts) ∧
      (wWit.messages.map (fun m => m.ts)).Nodup ∧ mWit ∈ wWit.messages) ∧
    ((∃ p ∈ batchPosts wWit, p.thread = mWit.ts) ↔
      (postedFor wWit mWit = true ∧ mWit ∈ stopFree wWit wWit.messages)) :=
  ⟨⟨by decide, by decide, by decide⟩,
    C2_posted_iff_amended wWit (by decide) (by decide) mWit (by decide)⟩

/-- Counterexample to C2 as stated: in `wStop` the older message
`mNext` satisfies (a) it has a video link, (b) its thread fetch
succeeds with no bot-authored reply, (c) its transcript resolves
non-empty (with a non-empty title), yet the run posts nothing at all,
because the newer already-replied candidate `mStop` terminates the
batch first. -/
theorem C2_counterexample :
    findUrl mNext.text = some urlWit
    ∧ threadBotReply wStop mNext = false
    ∧ fetchFailsFor wStop mNext = false
    ∧ get_video_data wStop urlWit =
        some ((("T").toList), (("D").toList), (("hello world").toList))
    ∧ batchPosts wStop = [] :=
  ⟨by decide, by decide, by decide, by decide, by decide⟩

/-- C3 (amended): under the channel data model, when position `k` is
the first message that triggers the stop condition — it has a video
link, its reply fetch succeeds, and its thread holds a bot-authored
reply — and no earlier position does, the batch examines exactly
positions `0` through `k` in order and never examines any later
position. -/
theorem C3_early_stop_amended (w : World)
    (H1 : ∀ m ∈ w.messages, resolvedThread m = m.ts)
    (H2 : (w.messages.map (fun m => m.ts)).Nodup)
    (k : Nat) (hk : k < w.messages.length)
    (hbefore : ∀ i, (hi : i < k) →
      stopsAt w (w.messages.get ⟨i, Nat.lt_trans hi hk⟩) = false)
    (hstop : stopsAt w (w.messages.get ⟨k, hk⟩) = true) :
    batchVisited w = (w.messages.take (k + 1)).map (fun m => m.ts) := by
  have heq := runLoop_eq w w.messages [] H1 H2 (by simp)
  have hvis : batchVisited w = visitedSpec w w.messages := by
    unfold batchVisited
    rw [heq]
  have hTD := takeWhile_eq_take_of_first (fun m => !stopsAt w m) w.messages k hk
    (fun i hi => by simpa using hbefore i hi)
    (by simpa using hstop)
  unfold visitedSpec stopFree at hvis
  rw [hTD.1, hTD.2, head?_drop_eq w.messages k hk] at hvis
  rw [hvis, List.take_succ, List.map_append]
  simp [List.getElem?_eq_getElem hk]

/-- Witness for C3 (amended): in `wStop3` the link-free newest message
is examined and passed over, the scan stops at position 1, and
position 2 is never examined. -/
theorem C3_early_stop_amended_witness :
    ((∀ m ∈ wStop3.messages, resolvedThread m = m.ts) ∧
      (wStop3.messages.map (fun m => m.ts)).Nodup ∧
      1 < wStop3.messages.length ∧
      stopsAt wStop3 mPlain = false ∧ stopsAt wStop3 mStop = true) ∧
    batchVisited wStop3 = (wStop3.messages.take 2).map (fun m => m.ts) := by
  have hk : 1 < wStop3.messages.length := by decide
  refine ⟨⟨by decide, by decide, by decide, by decide, by decide⟩, ?_⟩
  refine C3_early_stop_amended wStop3 (by decide) (by decide) 1 hk ?_ ?_
  · intro i hi
    have hz : i = 0 := by omega
    subst hz
    show stopsAt wStop3 mPlain = false
    decide
  · show stopsAt wStop3 mStop = true
    decide

/-- Counterexample to C3 as stated: in `wQuiet` the message at
position 0 is the first (indeed the only) one whose thread holds a
bot-authored reply, yet the batch does not stop there — it examines
position 1 as well, because the dedup check only runs for messages
carrying a video link and position 0 carries none. -/
theorem C3_counterexample :
    (wQuiet.messages.map (fun m => threadBotReply wQuiet m)) = [true, false]
    ∧ batchVisited wQuiet = [10, 5]
    ∧ batchVisited wQuiet ≠ [10] :=
  ⟨by decide, by decide, by decide⟩
